import Mathlib

/-!
Verification of `datasift/streamconsumer_http.py` (Livefyre/datasift-python).

The development shallowly embeds the parts of the module the claims are
about:

* the low-level chunk decoder of `StreamConsumer_HTTP_Thread`
  (`_raw_read`, `_raw_read_chunk`, `_read_chunk`, `_read_stream`),
* the worker run loop of `StreamConsumer_HTTP_Thread.run` with its
  two-tier backoff policy and its response classification,
* the hash-set mutation `StreamConsumer_HTTP.add_or_remove_hash`,
* the hot-swap protocol `StreamConsumer_HTTP.restart_thread`.

Byte strings are represented as `List Char` (the source is Python 2, where
`str` is a byte string).  Blocking reads are modelled with explicit fuel:
a socket is a list of the payloads successive `recv` calls return, and a
read past the end of that list blocks forever (result `blocked`).
External collaborators (`json.loads`, the event handler callbacks, the
`_is_running` flag) are parameters of the embedding.
-/

/-- `data.replace('\r', '')` of `_raw_read`: carriage returns are stripped
before the received bytes are appended to the buffer. -/
def stripCR (s : List Char) : List Char := s.filter (fun c => c ≠ '\r')

/-- Decoder state: the accumulating byte buffer `self._buffer` together
with the remaining socket input, modelled as the list of payloads that
successive `recv` calls will return. -/
structure DecState where
  buffer : List Char
  socket : List (List Char)
  deriving DecidableEq, Repr

/-- `_raw_read`: receive the next payload from the socket, strip carriage
returns and append to the buffer.  `none` models the blocking case: the
socket will never deliver further data, so the `select` loop spins
forever. -/
def rawRead (st : DecState) : Option DecState :=
  match st.socket with
  | [] => none
  | d :: rest => some ⟨st.buffer ++ stripCR d, rest⟩

/-- The loop guard of `_raw_read_chunk`:
`(length == 0 and self._buffer.find('\n') == -1) or
 (length > 0 and len(self._buffer) < length)`. -/
def needMore (length : Nat) (buf : List Char) : Bool :=
  if length = 0 then !(buf.contains '\n') else buf.length < length

/-- Result of a decoder operation.  `blocked` models a read that waits
forever for socket data that never arrives (or, when the socket handle is
`None`, the point at which `select.select([None], ...)` raises
`TypeError`); `excParse` models the `ValueError` raised by
`int(length, 16)` on a non-hexadecimal chunk-size line, which propagates
out of the decoder.  Both failing constructors carry
`(self._buffer, remaining socket input)` at the stop point, since the
buffer consumed so far stays consumed. -/
inductive ReadRes where
  | ok (val : List Char × DecState)
  | blocked (st : DecState)
  | excParse (st : DecState)
  deriving DecidableEq, Repr

/-- `_raw_read_chunk(length)`: pull socket data until the buffer contains a
newline (`length = 0`) or at least `length` bytes (`length > 0`), then
return `self._buffer[0:pos]` and set `self._buffer = self._buffer[pos+1:]`
where `pos` is the newline index resp. `length`.  Note the `+ 1`: one byte
beyond the returned ones is discarded.  `fuel` bounds the number of
`_raw_read` iterations; each iteration consumes one socket payload, so any
fuel above the socket length is equivalent. -/
def rawReadChunk (length : Nat) : Nat → DecState → ReadRes
  | fuel, st =>
    if needMore length st.buffer then
      match fuel with
      | 0 => .blocked st
      | fuel' + 1 =>
        match rawRead st with
        | none => .blocked st
        | some st' => rawReadChunk length fuel' st'
    else
      let pos := if length = 0 then st.buffer.findIdx (fun c => c == '\n') else length
      .ok (st.buffer.take pos, ⟨st.buffer.drop (pos + 1), st.socket⟩)

/-- Generous fuel bound for the decoder loops on a given state: every loop
iteration either consumes a socket payload or removes at least one byte
from the buffer. -/
def chunkFuel (st : DecState) : Nat :=
  st.buffer.length + (st.socket.map List.length).sum + st.socket.length + 2

/-- The skip-empty-lines loop at the head of `_read_chunk`:
`length = ''` then `while len(length) == 0: length = self._raw_read_chunk()`. -/
def skipEmpty : Nat → DecState → ReadRes
  | 0, st => .blocked st
  | fuel + 1, st =>
    match rawReadChunk 0 (st.socket.length + 1) st with
    | .ok (line, st') => if line.isEmpty then skipEmpty fuel st' else .ok (line, st')
    | .blocked stE => .blocked stE
    | .excParse stE => .excParse stE

/-- One hexadecimal digit, as accepted by Python's `int(_, 16)`. -/
def hexDigit (c : Char) : Option Nat :=
  if '0' ≤ c ∧ c ≤ '9' then some (c.toNat - '0'.toNat)
  else if 'a' ≤ c ∧ c ≤ 'f' then some (c.toNat - 'a'.toNat + 10)
  else if 'A' ≤ c ∧ c ≤ 'F' then some (c.toNat - 'A'.toNat + 10)
  else none

/-- `int(s, 16)` on the chunk-size lines that occur here: a non-empty
string of hexadecimal digits parses to its value, anything else raises
(`none`). -/
def hexParse (s : List Char) : Option Nat :=
  if s.isEmpty then none
  else s.foldl (fun acc c =>
    match acc, hexDigit c with
    | some a, some d => some (16 * a + d)
    | _, _ => none) (some 0)

/-- `_read_chunk`: obtain a non-empty line; on a non-chunked connection
that line is the frame; on a chunked connection the line is parsed as a
hexadecimal length and `_raw_read_chunk(length)` yields the payload. -/
def readChunk (chunked : Bool) (fuel : Nat) (st : DecState) : ReadRes :=
  match skipEmpty fuel st with
  | .ok (line, st') =>
    if chunked then
      match hexParse line with
      | none => .excParse st'
      | some n =>
        match rawReadChunk n (st'.socket.length + 1) st' with
        | .ok r => .ok r
        | .blocked stE => .blocked stE
        | .excParse stE => .excParse stE
    else .ok (line, st')
  | .blocked stE => .blocked stE
  | .excParse stE => .excParse stE

/-- The error-payload read loop of the 4xx branch of `run`:
`json_data = 'init'` (truthy, length 4) then
`while json_data and len(json_data) <= 4: json_data = self._read_chunk()`.
The loop always reads at least one frame and keeps reading while the frame
just read is non-empty and at most 4 bytes long. -/
def readErrorBody (chunked : Bool) : Nat → DecState → ReadRes
  | 0, st => .blocked st
  | fuel + 1, st =>
    match readChunk chunked (chunkFuel st) st with
    | .ok (jd, st') =>
      if !jd.isEmpty && jd.length ≤ 4 then readErrorBody chunked fuel st'
      else .ok (jd, st')
    | .blocked stE => .blocked stE
    | .excParse stE => .excParse stE

/-- The distinct error messages `run` can report. -/
inductive ErrMsg where
  /-- `'Connection failed: %s' % err` on `urllib2.URLError`. -/
  | connectionFailed
  /-- `'Connection failed: %d [no error message]' % resp_code` when
  `json.loads` raises on the error payload. -/
  | noErrorMessage (code : Nat)
  /-- `data['message']`, reported verbatim. -/
  | message (m : List Char)
  /-- `'Hash not found'` when the parsed payload is falsy or has no
  `message` field. -/
  | hashNotFound
  /-- `'%s, no more retries'` at exponential-backoff give-up (carries the
  response code of the `ExponentialBackoffError`). -/
  | noMoreRetriesExp (code : Nat)
  /-- `'Connection failed (%s), no more retries'` at linear give-up. -/
  | noMoreRetriesLin
  deriving DecidableEq, Repr

/-- Events the worker emits towards the Event Sink (and its sleeps).
`onWarning` carries the delay named in the warning message
(`retrying in N seconds`); the textual wrapping of messages is logging and
is not modelled. -/
inductive Ev where
  | sleep (secs : Nat)
  | onConnect
  | onData (frame : List Char)
  | onWarning (delay : Nat)
  | onError (msg : ErrMsg)
  | onDisconnect
  deriving DecidableEq, Repr

/-- How `_read_stream` ended. -/
inductive StreamEnd where
  /-- The loop condition `_is_running(False) and not _stop_requested`
  became false: normal exit. -/
  | stopped
  /-- The Event Sink data callback `_on_data` raised. -/
  | raisedData
  /-- `int(length, 16)` raised on a chunk-size line. -/
  | raisedParse
  /-- A read blocked forever waiting for socket data. -/
  | blocked
  deriving DecidableEq, Repr

/-- `_read_stream`: while the running/stop condition holds, pull one frame
with `_read_chunk` and hand it to `_on_data`.  `conds` is the oracle of
successive loop-condition evaluations (exhausted means false); `raises`
models which frames make the external data callback raise. -/
def readStream (raises : List Char → Bool) (chunked : Bool) :
    List Bool → DecState → List Ev × StreamEnd × DecState
  | [], st => ([], .stopped, st)
  | c :: conds, st =>
    if c then
      match readChunk chunked (chunkFuel st) st with
      | .ok (frame, st') =>
        if raises frame then ([Ev.onData frame], .raisedData, st')
        else
          let r := readStream raises chunked conds st'
          (Ev.onData frame :: r.1, r.2.1, r.2.2)
      | .blocked stE => ([], .blocked, stE)
      | .excParse stE => ([], .raisedParse, stE)
    else ([], .stopped, st)

/-- Per-worker mutable state threaded through the iterations of `run`:
`connection_delay`, `self._chunked`, `self._buffer` and `self._sock`.
All are initialized exactly once, in `__init__` (see `initRunState`), and
persist across reconnect attempts.  `sock` is the worker's raw-socket
handle: `none` models `self._sock = None`; `some recvs` models an open
handle whose remaining `recv` results are `recvs`.  The program assigns
`self._sock` only when `resp_code == 200` (lines 253-259), so it stays
`None` until the first successful connection. -/
structure RunState where
  delay : Nat
  chunked : Bool
  buffer : List Char
  sock : Option (List (List Char))
  deriving DecidableEq, Repr

/-- `StreamConsumer_HTTP_Thread.__init__`: `self._buffer = ''`,
`self._sock = None`, `self._chunked = False`, and the backoff delay
starts at 0. -/
def initRunState : RunState := ⟨0, false, [], none⟩

/-- What one iteration of the `run` loop encounters when it tries to
connect. -/
inductive Outcome where
  /-- `urllib2.urlopen` raised `urllib2.URLError`. -/
  | urlError
  /-- Some other exception was raised during the connect step (for
  example a timeout); it falls through to the generic handler. -/
  | preExc
  /-- A response arrived (possibly via `urllib2.HTTPError`, which the code
  reuses as the response object): its status code, whether its
  `Transfer-Encoding` header says chunked, the socket payloads behind it
  and the `_read_stream` loop-condition oracle for it.  The worker can
  only reach `recvs` when the 200 branch assigns `self._sock`; on any
  other status the response's own socket is never obtained. -/
  | resp (code : Nat) (respChunked : Bool) (recvs : List (List Char)) (conds : List Bool)

/-- How one iteration of the `run` loop ended. -/
inductive StepRes where
  /-- Loop continues with the new state. -/
  | cont (st : RunState)
  /-- `_read_stream` returned normally (stop requested): the loop exits
  without an `onDisconnect` (the stop-requested case of lines 326-327). -/
  | stopRun (st : RunState)
  /-- `break`: the loop exits and, since `_stop_requested` is false,
  `onDisconnect` is reported. -/
  | broke (st : RunState)
  /-- A decoder read blocked forever; no further event is ever emitted. -/
  | blockedForever
  deriving DecidableEq, Repr

/-- The generic `except Exception` handler (the linear backoff policy;
the dedicated `LinearBackoffError` clause is commented out in the source,
so every non-exponential exception lands here):
if `connection_delay < 16` increment it and warn, else report the fatal
error and break. -/
def linearHandler (st : RunState) : List Ev × StepRes :=
  if st.delay < 16 then
    ([Ev.onWarning (st.delay + 1)], .cont { st with delay := st.delay + 1 })
  else
    ([Ev.onError .noMoreRetriesLin], .broke st)

/-- The `except ExponentialBackoffError` handler: `0 → 10`, then doubling
while `connection_delay < 320`, else report the fatal error and break. -/
def expHandler (code : Nat) (st : RunState) : List Ev × StepRes :=
  if st.delay = 0 then
    ([Ev.onWarning 10], .cont { st with delay := 10 })
  else if st.delay < 320 then
    ([Ev.onWarning (2 * st.delay)], .cont { st with delay := 2 * st.delay })
  else
    ([Ev.onError (.noMoreRetriesExp code)], .broke st)

/-- The error reported by the 4xx branch once the payload `jd` has been
read: `json.loads` raising (`jsonParse _ = none`) gives the generic
no-error-message text; a parse where `data` is falsy or lacks a
`message` field (`some none`) gives `'Hash not found'`; otherwise the
`message` value is reported verbatim. -/
def errMsgFor (jsonParse : List Char → Option (Option (List Char)))
    (code : Nat) (jd : List Char) : ErrMsg :=
  match jsonParse jd with
  | none => .noErrorMessage code
  | some none => .hashNotFound
  | some (some m) => .message m

/-- One iteration of the `run` loop body (after the sleep), dispatching on
what the connect step produced.  `jsonParse` models `json.loads` together
with the `data and 'message' in data` test; `raises` models the external
data callback raising.

The 4xx branch reads the error payload with `self._read_chunk()`, which
goes through `self._sock` — not through the 4xx response, whose socket the
program never obtains.  If the worker has never connected, `self._sock`
is still `None` and the first `_raw_read` raises `TypeError` inside
`select.select([None], ...)`; that exception falls to the generic
`except Exception` handler (linear backoff).  If an earlier 200 connection
set `self._sock`, the read consumes whatever the stale socket still
yields.  Reads satisfiable purely from buffered leftovers succeed without
touching the socket in either case. -/
def runStep (jsonParse : List Char → Option (Option (List Char)))
    (raises : List Char → Bool) (st : RunState) : Outcome → List Ev × StepRes
  | .urlError => ([Ev.onError .connectionFailed], .broke st)
  | .preExc => linearHandler st
  | .resp code respChunked recvs conds =>
    -- `self._chunked = True` when the header says chunked; never cleared.
    let chunked' := st.chunked || respChunked
    if code = 200 then
      -- `self._sock` is assigned the new raw socket, the delay is reset,
      -- connect is reported, then the worker streams.
      let r := readStream raises chunked' conds ⟨st.buffer, recvs⟩
      let st2 : RunState := ⟨0, chunked', r.2.2.buffer, some r.2.2.socket⟩
      match r.2.1 with
      | .stopped => (Ev.onConnect :: r.1, .stopRun st2)
      | .blocked => (Ev.onConnect :: r.1, .blockedForever)
      | .raisedData =>
        let h := linearHandler st2
        (Ev.onConnect :: r.1 ++ h.1, h.2)
      | .raisedParse =>
        let h := linearHandler st2
        (Ev.onConnect :: r.1 ++ h.1, h.2)
    else if 400 ≤ code ∧ code < 500 ∧ code ≠ 420 then
      match st.sock with
      | none =>
        -- `self._sock` is `None`: no socket data is reachable, and any
        -- `_raw_read` call raises `TypeError` → generic handler.
        match readErrorBody chunked' (chunkFuel ⟨st.buffer, []⟩) ⟨st.buffer, []⟩ with
        | .ok (jd, dec') =>
          ([Ev.onError (errMsgFor jsonParse code jd)],
           .broke ⟨st.delay, chunked', dec'.buffer, none⟩)
        | .blocked decE => linearHandler ⟨st.delay, chunked', decE.buffer, none⟩
        | .excParse decE => linearHandler ⟨st.delay, chunked', decE.buffer, none⟩
      | some sdata =>
        -- stale socket from a previous 200 connection.
        match readErrorBody chunked' (chunkFuel ⟨st.buffer, sdata⟩) ⟨st.buffer, sdata⟩ with
        | .ok (jd, dec') =>
          ([Ev.onError (errMsgFor jsonParse code jd)],
           .broke ⟨st.delay, chunked', dec'.buffer, some dec'.socket⟩)
        | .blocked _ => ([], .blockedForever)
        | .excParse decE => linearHandler ⟨st.delay, chunked', decE.buffer, some decE.socket⟩
    else expHandler code ⟨st.delay, chunked', st.buffer, st.sock⟩

/-- How the whole `run` method ended. -/
inductive RunRes where
  /-- The `while` condition became false (stop requested / not running). -/
  | stoppedExternally (st : RunState)
  /-- `_read_stream` exited via its stop condition. -/
  | stoppedInRead (st : RunState)
  /-- A `break` terminated the loop; `onDisconnect` was reported. -/
  | terminated (st : RunState)
  /-- A read blocked forever. -/
  | blockedForever
  deriving DecidableEq, Repr

/-- The `run` loop: each list element is one connection attempt; the list
running out models the loop condition
`_is_running(True) and not _stop_requested` turning false.  Each iteration
first sleeps `connection_delay` seconds when it is positive, then executes
the attempt. -/
def runLoop (jsonParse : List Char → Option (Option (List Char)))
    (raises : List Char → Bool) : RunState → List Outcome → List Ev × RunRes
  | st, [] => ([], .stoppedExternally st)
  | st, o :: rest =>
    let sleeps := if 0 < st.delay then [Ev.sleep st.delay] else []
    match runStep jsonParse raises st o with
    | (evs, .cont st') =>
      let r := runLoop jsonParse raises st' rest
      (sleeps ++ evs ++ r.1, r.2)
    | (evs, .stopRun st') => (sleeps ++ evs, .stoppedInRead st')
    | (evs, .broke st') => (sleeps ++ evs ++ [Ev.onDisconnect], .terminated st')
    | (evs, .blockedForever) => (sleeps ++ evs, .blockedForever)

/-- The state carried by a `StepRes`, when any: the worker state at the
start of the next attempt (for `cont`) or at loop exit. -/
def StepRes.state : StepRes → Option RunState
  | .cont st => some st
  | .stopRun st => some st
  | .broke st => some st
  | .blockedForever => none

/-- The frames delivered to the Event Sink data callback in a trace. -/
def dataFrames (evs : List Ev) : List (List Char) :=
  evs.filterMap fun e =>
    match e with
    | .onData f => some f
    | _ => none

/-- The error messages reported to the Event Sink in a trace. -/
def errorMsgs (evs : List Ev) : List ErrMsg :=
  evs.filterMap fun e =>
    match e with
    | .onError m => some m
    | _ => none

/-- A 503 response with no chunked header and no body activity: the
representative exponential-backoff failure
(`raise ExponentialBackoffError('Received 503 response')`). -/
def exp503 : Outcome := .resp 503 false [] []

/-- A `json.loads` model defined nowhere: every payload raises. -/
def jsonParseNone : List Char → Option (Option (List Char)) := fun _ => none

/-- A data callback that never raises. -/
def raisesNever : List Char → Bool := fun _ => false

/-- A data callback that raises on every frame. -/
def raisesAlways : List Char → Bool := fun _ => true

/-- The byte string `\x7b"message":"Unknown hash"\x7d`. -/
def jsonUnknownHash : List Char := "\x7b\"message\":\"Unknown hash\"\x7d".toList

/-- The byte string `Unknown hash`. -/
def unknownHashMsg : List Char := "Unknown hash".toList

/-- The byte string `\x7b\x7d` (an empty JSON object: parses, is falsy,
has no `message` field). -/
def emptyObj : List Char := "\x7b\x7d".toList

/-- A `json.loads` model agreeing with Python on the two payloads the
concrete scenarios use: `\x7b"message":"Unknown hash"\x7d` parses with a
`message` field, `\x7b\x7d` parses falsy, everything else raises. -/
def jsonParseC : List Char → Option (Option (List Char)) := fun s =>
  if s = jsonUnknownHash then some (some unknownHashMsg)
  else if s = emptyObj then some none
  else none

/-- `StreamConsumer_HTTP.add_or_remove_hash` on the hash list
`self._hashes`: returns the boolean result, the updated list and whether
`restart_thread` was triggered.  Addition of a tracked hash and removal of
an untracked hash return `False` with no mutation and no restart;
otherwise the list is appended to / the first occurrence erased, and the
restart happens iff `force_restart`. -/
def add_or_remove_hash (hashes : List String) (h : String)
    (is_add force_restart : Bool) : Bool × List String × Bool :=
  if hashes.contains h && is_add then (false, hashes, false)
  else if !(hashes.contains h) && !is_add then (false, hashes, false)
  else
    let hashes' := if is_add then hashes ++ [h] else hashes.erase h
    (true, hashes', force_restart)

/-- Observable events of `StreamConsumer_HTTP.restart_thread`. -/
inductive RestartEv where
  /-- `StreamConsumer_HTTP_Thread(self)` is created and started. -/
  | spawnNew
  /-- One evaluation of the guard `not new_thread._has_connected`, with
  the value observed for the flag. -/
  | pollConnected (observed : Bool)
  /-- `self._thread.stop()`: the old worker's stop-requested flag is set. -/
  | stopOld
  /-- `self._thread = new_thread`. -/
  | swapRef
  deriving DecidableEq, Repr

/-- The polling loop of `restart_thread`
(`while not new_thread._has_connected: time.sleep(1)`) followed by
`self._thread.stop()` and the reference swap.  `hc i` is the value of
`new_thread._has_connected` at the `i`-th poll; `fuel` bounds the number
of polls (fuel running out models the loop still spinning: the trace ends
with no `stopOld` ever issued). -/
def restartLoop (hc : Nat → Bool) : Nat → Nat → List RestartEv
  | 0, _ => []
  | fuel + 1, i =>
    if hc i then [.pollConnected true, .stopOld, .swapRef]
    else .pollConnected false :: restartLoop hc fuel (i + 1)

/-- `StreamConsumer_HTTP.restart_thread`: spawn the new worker, poll its
has-connected flag until observed true, then stop the old worker and swap
the reference. -/
def restart_thread (hc : Nat → Bool) (fuel : Nat) : List RestartEv :=
  .spawnNew :: restartLoop hc fuel 0

/-- Outcomes whose handling never reads from the body: connect-phase
exceptions and the statuses routed straight to the exponential handler.
Their iteration leaves `self._buffer` untouched. -/
def Outcome.noBodyRead : Outcome → Prop
  | .urlError => True
  | .preExc => True
  | .resp code _ _ _ => code ≠ 200 ∧ ¬(400 ≤ code ∧ code < 500 ∧ code ≠ 420)

/-- Raw socket input of the 404 scenario: the single frame
`\x7b"message":"Unknown hash"\x7d`. -/
def c4ScenarioRecv : List Char := jsonUnknownHash ++ ['\n']

/-- The raw chunked-transfer input of the C5 scenario. -/
def c5Raw : List Char := "5\r\nHELLO\r\n0\r\n\r\n".toList

/-- The frame `HELLO`. -/
def helloFrame : List Char := "HELLO".toList

/-- Socket input `A\nB\n` used by the C10 witness. -/
def recvAB : List Char := "A\nB\n".toList

/-! ## Theorems -/

/-- In the restart loop, a `stopOld` event can only occur right after a
poll that observed the has-connected flag to be true. -/
lemma restartLoop_stop_shape (hc : Nat → Bool) :
    ∀ fuel i, RestartEv.stopOld ∈ restartLoop hc fuel i →
    ∃ n, restartLoop hc fuel i =
      List.replicate n (RestartEv.pollConnected false) ++
        [RestartEv.pollConnected true, RestartEv.stopOld, RestartEv.swapRef] ∧
      hc (i + n) = true := by
  intro fuel
  induction fuel with
  | zero => intro i h; simp [restartLoop] at h
  | succ fuel ih =>
    intro i h
    by_cases hci : hc i
    · exact ⟨0, by simp [restartLoop, hci], by simpa using hci⟩
    · rw [restartLoop, if_neg hci] at h
      simp only [List.mem_cons] at h
      rcases h with h | h
      · exact absurd h (by simp)
      · obtain ⟨n, hn, hcn⟩ := ih (i + 1) h
        refine ⟨n + 1, ?_, ?_⟩
        · rw [restartLoop, if_neg hci, hn]
          simp [List.replicate_succ]
        · have : i + (n + 1) = i + 1 + n := by omega
          rw [this]; exact hcn

/-- C1: in every execution of `restart_thread` in which the old worker's
stop signal is issued at all, that `stopOld` is immediately preceded by a
poll observing `new_thread._has_connected = true`: the trace is the spawn,
then `n` polls observing false, then a poll observing true, then the stop
and the reference swap; and the flag was indeed true at that `n`-th poll. -/
theorem restart_stop_only_after_connected (hc : Nat → Bool) (fuel : Nat)
    (h : RestartEv.stopOld ∈ restart_thread hc fuel) :
    ∃ n, restart_thread hc fuel =
      RestartEv.spawnNew :: (List.replicate n (RestartEv.pollConnected false) ++
        [RestartEv.pollConnected true, RestartEv.stopOld, RestartEv.swapRef]) ∧
      hc n = true := by
  rw [restart_thread] at h
  simp only [List.mem_cons] at h
  rcases h with h | h
  · exact absurd h (by simp)
  · obtain ⟨n, hn, hcn⟩ := restartLoop_stop_shape hc fuel 0 h
    exact ⟨n, by rw [restart_thread, hn], by simpa using hcn⟩

/-- Witness for C1: a flag that becomes true at the third poll. -/
theorem restart_stop_only_after_connected_witness :
    ∃ n, restart_thread (fun i => decide (2 ≤ i)) 5 =
      RestartEv.spawnNew :: (List.replicate n (RestartEv.pollConnected false) ++
        [RestartEv.pollConnected true, RestartEv.stopOld, RestartEv.swapRef]) ∧
      (fun i => decide (2 ≤ i)) n = true :=
  restart_stop_only_after_connected (fun i => decide (2 ≤ i)) 5 (by decide)

/-- C2: starting from a reset backoff state (delay 0), seven consecutive
exponential-category failures produce: a first attempt with no sleep, then
retries preceded by sleeps of 10, 20, 40, 80, 160 and 320 seconds, each
retry announced by a warning naming the computed delay; the seventh
failure (delay already 320) reports the fatal no-more-retries error and
the loop breaks, processing none of the remaining attempts `rest`. -/
theorem exp_backoff_schedule (jp : List Char → Option (Option (List Char)))
    (rs : List Char → Bool) (c : Bool) (b : List Char)
    (sk : Option (List (List Char))) (rest : List Outcome) :
    runLoop jp rs ⟨0, c, b, sk⟩ (List.replicate 7 exp503 ++ rest) =
    ([.onWarning 10, .sleep 10, .onWarning 20, .sleep 20, .onWarning 40, .sleep 40,
      .onWarning 80, .sleep 80, .onWarning 160, .sleep 160, .onWarning 320, .sleep 320,
      .onError (.noMoreRetriesExp 503), .onDisconnect], .terminated ⟨320, c, b, sk⟩) := by
  simp [runLoop, runStep, expHandler, exp503, List.replicate_succ]

/-- C3: starting from a reset backoff state (delay 0), seventeen
consecutive linear-category failures produce warnings naming delays
1, 2, ..., 16, each retry preceded by the corresponding sleep; on the
seventeenth failure (delay already 16) the fatal no-more-retries error is
reported and the loop breaks, processing none of the remaining attempts. -/
theorem linear_backoff_schedule (jp : List Char → Option (Option (List Char)))
    (rs : List Char → Bool) (c : Bool) (b : List Char)
    (sk : Option (List (List Char))) (rest : List Outcome) :
    runLoop jp rs ⟨0, c, b, sk⟩ (List.replicate 17 .preExc ++ rest) =
    ([.onWarning 1, .sleep 1, .onWarning 2, .sleep 2, .onWarning 3, .sleep 3,
      .onWarning 4, .sleep 4, .onWarning 5, .sleep 5, .onWarning 6, .sleep 6,
      .onWarning 7, .sleep 7, .onWarning 8, .sleep 8, .onWarning 9, .sleep 9,
      .onWarning 10, .sleep 10, .onWarning 11, .sleep 11, .onWarning 12, .sleep 12,
      .onWarning 13, .sleep 13, .onWarning 14, .sleep 14, .onWarning 15, .sleep 15,
      .onWarning 16, .sleep 16,
      .onError .noMoreRetriesLin, .onDisconnect], .terminated ⟨16, c, b, sk⟩) := by
  simp [runLoop, runStep, linearHandler, List.replicate_succ]

/-- C8: adding a hash that is already tracked returns failure, leaves the
hash list unchanged and triggers no restart; removing a hash that is not
tracked behaves symmetrically. -/
theorem add_remove_hash_noop (hashes : List String) (h : String) (fr : Bool) :
    (hashes.contains h = true →
      add_or_remove_hash hashes h true fr = (false, hashes, false)) ∧
    (hashes.contains h = false →
      add_or_remove_hash hashes h false fr = (false, hashes, false)) := by
  constructor <;> intro hm <;> simp [add_or_remove_hash, hm] <;> simpa using hm

/-- Witness for C8: both no-op cases at concrete inputs. -/
theorem add_remove_hash_noop_witness :
    add_or_remove_hash ["a"] "a" true true = (false, ["a"], false) ∧
    add_or_remove_hash ["a"] "b" false true = (false, ["a"], false) :=
  ⟨(add_remove_hash_noop ["a"] "a" true).1 (by decide),
   (add_remove_hash_noop ["a"] "b" true).2 (by decide)⟩

/-- C4 states the intent of the 4xx branch (lines 272-292: read the
error response, report its message, `# Do not attempt to reconnect`), but
the code cannot realize it: `self._sock` is `None` from `__init__` and is
assigned only when `resp_code == 200` (lines 253-259), so the 4xx body
read reaches `select.select([self._sock], ...)` with `None` and raises
`TypeError`, which the generic `except Exception` handler turns into a
linear-backoff warning and a reconnect.  At the claim's own scenario — a
fresh worker receiving a 404 with body `\x7b"message":"Unknown hash"\x7d`
(here followed by one more attempt) — the worker emits no `onError` at
all: it warns `retrying in 1 seconds` and proceeds to the next connection
attempt, the reconnect the claim rules out. -/
theorem client_error_socket_bug :
    runLoop jsonParseC raisesNever initRunState
      [.resp 404 false [c4ScenarioRecv] [], exp503] =
    ([.onWarning 1, .sleep 1, .onWarning 2],
     .stoppedExternally ⟨2, false, [], none⟩) ∧
    errorMsgs (runLoop jsonParseC raisesNever initRunState
      [.resp 404 false [c4ScenarioRecv] [], exp503]).1 = [] := by
  decide

/-- Counterexample to C5 as stated: on a chunked connection fed the raw
bytes `5\r\nHELLO\r\n0\r\n\r\n` the worker does not deliver exactly one
frame.  After the byte-identical `HELLO` frame, the zero-length chunk is
not treated as end of body: `_read_chunk` returns the empty payload and
`_read_stream` delivers it to the data callback as a second frame. -/
theorem chunked_roundtrip_counterexample :
    dataFrames (runLoop jsonParseNone raisesNever initRunState
      [.resp 200 true [c5Raw] [true, true, true]]).1 = [helloFrame, []] ∧
    dataFrames (runLoop jsonParseNone raisesNever initRunState
      [.resp 200 true [c5Raw] [true, true, true]]).1 ≠ [helloFrame] := by
  decide

/-- C5 amended: on a connection flagged as chunked, decoding the raw input
`5\r\nHELLO\r\n0\r\n\r\n` delivers the frame `HELLO` byte-identical, then
delivers one further, empty frame for the zero-length chunk (the decoder
does not recognise a zero-length chunk as end of body), after which the
next read blocks forever waiting for more data, so no further frame is
ever delivered. -/
theorem chunked_roundtrip_trace :
    runLoop jsonParseNone raisesNever initRunState
      [.resp 200 true [c5Raw] [true, true, true]] =
    ([.onConnect, .onData helloFrame, .onData []], .blockedForever) := by
  decide

/-- Counterexample to C6 as stated: the length-bounded read does not
remove exactly `n` bytes.  With buffer `HELLO\n0\n\n` and `n = 5` it
returns `HELLO` but leaves `0\n\n`, not `\n0\n\n` = `drop 5`. -/
theorem readExact_counterexample :
    rawReadChunk 5 0 ⟨"HELLO\n0\n\n".toList, []⟩ =
      .ok ("HELLO".toList, ⟨"0\n\n".toList, []⟩) ∧
    "0\n\n".toList ≠ ("HELLO\n0\n\n".toList).drop 5 := by
  decide

/-- C6 amended: for every `n > 0`, once the buffer holds at least `n`
bytes, `_raw_read_chunk(n)` performs no socket read, returns exactly the
first `n` bytes of the buffer and removes exactly `n + 1` bytes — the
returned payload plus the single trailing delimiter byte — leaving the
remaining bytes unchanged. -/
theorem readExact_removes_payload_and_delimiter (n fuel : Nat) (st : DecState)
    (h1 : 0 < n) (h2 : n ≤ st.buffer.length) :
    rawReadChunk n fuel st = .ok (st.buffer.take n, ⟨st.buffer.drop (n + 1), st.socket⟩) := by
  have hne : ¬(n = 0) := by omega
  have hm : needMore n st.buffer = false := by
    simp [needMore, hne]; omega
  rw [rawReadChunk.eq_def]
  simp [hm, hne]

/-- Witness for C6 amended at `n = 3` on the buffer `abcdef`. -/
theorem readExact_removes_payload_and_delimiter_witness :
    rawReadChunk 3 0 ⟨"abcdef".toList, []⟩ =
      .ok (("abcdef".toList).take 3, ⟨("abcdef".toList).drop 4, []⟩) :=
  readExact_removes_payload_and_delimiter 3 0 ⟨"abcdef".toList, []⟩
    (by decide) (by decide)

/-- Counterexample to C7 as stated: the two backoff delays are not
independent counters.  From a reset state, one exponential failure then
one linear failure yields warnings naming 10 and then 11: the linear
failure found the shared counter at 10 and incremented it, whereas under
independent counters the first linear failure of the streak would have
named delay 1. -/
theorem backoff_counters_counterexample :
    (runLoop jsonParseNone raisesNever initRunState [exp503, .preExc]).1 =
      [.onWarning 10, .sleep 10, .onWarning 11] ∧
    (11 : Nat) ≠ 1 := by
  decide

/-- C7 amended: the exponential and linear policies operate on one shared
delay counter (`connection_delay`).  From any state with `0 < d < 16`, a
linear failure warns `d + 1` and an exponential failure warns `2 * d` —
both reading and writing the same counter — and a connection reaching
status 200 resets that one counter to zero. -/
theorem backoff_shared_counter (jp : List Char → Option (Option (List Char)))
    (rs : List Char → Bool) (d : Nat) (c : Bool) (b : List Char)
    (sk : Option (List (List Char))) (h1 : 0 < d) (h2 : d < 16) :
    (runLoop jp rs ⟨d, c, b, sk⟩ [.preExc]).1 = [.sleep d, .onWarning (d + 1)] ∧
    (runLoop jp rs ⟨d, c, b, sk⟩ [exp503]).1 = [.sleep d, .onWarning (2 * d)] ∧
    runLoop jp rs ⟨d, c, b, sk⟩ [.resp 200 false [] []] =
      ([.sleep d, .onConnect], .stoppedInRead ⟨0, c, b, some []⟩) := by
  have h3 : d < 320 := by omega
  have h0 : ¬(d = 0) := by omega
  refine ⟨?_, ?_, ?_⟩
  · simp [runLoop, runStep, linearHandler, h1, h2]
  · simp [runLoop, runStep, expHandler, exp503, h0, h1, h3]
  · simp [runLoop, runStep, readStream, h1]

/-- Witness for C7 amended at shared counter value 10. -/
theorem backoff_shared_counter_witness :
    (runLoop jsonParseNone raisesNever ⟨10, false, [], none⟩ [.preExc]).1 =
      [.sleep 10, .onWarning 11] ∧
    (runLoop jsonParseNone raisesNever ⟨10, false, [], none⟩ [exp503]).1 =
      [.sleep 10, .onWarning 20] ∧
    runLoop jsonParseNone raisesNever ⟨10, false, [], none⟩ [.resp 200 false [] []] =
      ([.sleep 10, .onConnect], .stoppedInRead ⟨0, false, [], some []⟩) :=
  backoff_shared_counter jsonParseNone raisesNever 10 false [] none (by decide) (by decide)

/-- `_raw_read` only ever appends to the buffer (newly received bytes,
carriage returns stripped): existing bytes stay at the front. -/
lemma rawRead_append (dec dec' : DecState) (h : rawRead dec = some dec') :
    ∃ s, dec'.buffer = dec.buffer ++ s := by
  cases dec with
  | mk buf sock =>
    cases sock with
    | nil => simp [rawRead] at h
    | cons d rest =>
      simp [rawRead] at h
      exact ⟨stripCR d, by rw [← h]⟩

/-- C9: the worker's byte buffer and chunked flag are initialized only at
construction and never reset between reconnect attempts.  For any single
iteration of the run loop that leaves the worker in state `st'`:
once the chunked flag is true it is still true afterwards (each response
only or-s the header bit in); an attempt that involves no body read leaves
the buffer exactly as it was; and the raw reads that do grow the buffer
only append, so leftover bytes from a failed connection remain at the
front of the buffer when the next connection starts. -/
theorem worker_buffer_chunked_persist (jp : List Char → Option (Option (List Char)))
    (rs : List Char → Bool) (st : RunState) (o : Outcome) (st' : RunState)
    (h : ((runStep jp rs st o).2).state = some st') :
    (st.chunked = true → st'.chunked = true) ∧
    (o.noBodyRead → st'.buffer = st.buffer) ∧
    (∀ dec dec', rawRead dec = some dec' → ∃ s, dec'.buffer = dec.buffer ++ s) := by
  cases o with
  | urlError =>
    simp [runStep, StepRes.state] at h
    subst h
    exact ⟨fun hc => hc, fun _ => rfl, rawRead_append⟩
  | preExc =>
    by_cases hd : st.delay < 16 <;>
      simp [runStep, linearHandler, hd, StepRes.state] at h <;>
      subst h <;>
      exact ⟨fun hc => hc, fun _ => rfl, rawRead_append⟩
  | resp code rc recvs conds =>
    by_cases h200 : code = 200
    · subst h200
      rcases hrs : readStream rs (st.chunked || rc) conds ⟨st.buffer, recvs⟩ with ⟨devs, e, dec'⟩
      cases e <;>
        simp [runStep, StepRes.state, hrs, linearHandler] at h <;>
        subst h <;>
        exact ⟨fun hc => by simp [hc], fun hnb => absurd rfl hnb.1, rawRead_append⟩
    · by_cases h4 : 400 ≤ code ∧ code < 500 ∧ code ≠ 420
      · rcases hsk : st.sock with _ | sdata
        · rcases hre : readErrorBody (st.chunked || rc) (chunkFuel ⟨st.buffer, []⟩)
              ⟨st.buffer, []⟩ with v | decE | decE
          · obtain ⟨jd, decB⟩ := v
            simp [runStep, StepRes.state, h200, h4, hsk, hre] at h
            subst h
            exact ⟨fun hc => by simp [hc], fun hnb => absurd h4 hnb.2, rawRead_append⟩
          · by_cases hd : st.delay < 16 <;>
              simp [runStep, StepRes.state, h200, h4, hsk, hre, linearHandler, hd] at h <;>
              subst h <;>
              exact ⟨fun hc => by simp [hc], fun hnb => absurd h4 hnb.2, rawRead_append⟩
          · by_cases hd : st.delay < 16 <;>
              simp [runStep, StepRes.state, h200, h4, hsk, hre, linearHandler, hd] at h <;>
              subst h <;>
              exact ⟨fun hc => by simp [hc], fun hnb => absurd h4 hnb.2, rawRead_append⟩
        · rcases hre : readErrorBody (st.chunked || rc) (chunkFuel ⟨st.buffer, sdata⟩)
              ⟨st.buffer, sdata⟩ with v | decE | decE
          · obtain ⟨jd, decB⟩ := v
            simp [runStep, StepRes.state, h200, h4, hsk, hre] at h
            subst h
            exact ⟨fun hc => by simp [hc], fun hnb => absurd h4 hnb.2, rawRead_append⟩
          · simp [runStep, StepRes.state, h200, h4, hsk, hre] at h
          · by_cases hd : st.delay < 16 <;>
              simp [runStep, StepRes.state, h200, h4, hsk, hre, linearHandler, hd] at h <;>
              subst h <;>
              exact ⟨fun hc => by simp [hc], fun hnb => absurd h4 hnb.2, rawRead_append⟩
      · by_cases hz : st.delay = 0
        · simp [runStep, StepRes.state, h200, h4, expHandler, hz] at h
          subst h
          exact ⟨fun hc => by simp [hc], fun _ => rfl, rawRead_append⟩
        · by_cases hlt : st.delay < 320 <;>
            simp [runStep, StepRes.state, h200, h4, expHandler, hz, hlt] at h <;>
            subst h <;>
            exact ⟨fun hc => by simp [hc], fun _ => rfl, rawRead_append⟩

/-- Witness for C9: a linear-category connect failure from a worker whose
chunked flag is already true and whose buffer holds leftover bytes. -/
theorem worker_buffer_chunked_persist_witness :
    ((⟨3, true, helloFrame, none⟩ : RunState).chunked = true →
      (⟨4, true, helloFrame, none⟩ : RunState).chunked = true) ∧
    (Outcome.noBodyRead .preExc →
      (⟨4, true, helloFrame, none⟩ : RunState).buffer =
        (⟨3, true, helloFrame, none⟩ : RunState).buffer) ∧
    (∀ dec dec', rawRead dec = some dec' → ∃ s, dec'.buffer = dec.buffer ++ s) :=
  worker_buffer_chunked_persist jsonParseNone raisesNever ⟨3, true, helloFrame, none⟩ .preExc
    ⟨4, true, helloFrame, none⟩ (by decide)

/-- C10: if the Event Sink data callback raises an ordinary exception
while the worker is streaming frames, the exception is consumed inside
`run` (the run function is total and yields an ordinary event trace, never
propagating the exception) and classified by the generic linear-backoff
handler.  The connection had just reached 200 and reset the shared delay
to 0, so the handler always takes its warning branch here, emitting
`onWarning 1` and reconnecting with the remaining attempts; the fatal
no-more-retries branch (delay already 16) is the handler's other arm and
is not reachable from a raise that immediately follows a successful
connect. -/
theorem data_callback_exception_backoff (jp : List Char → Option (Option (List Char)))
    (rs : List Char → Bool) (st : RunState) (rc : Bool)
    (recvs : List (List Char)) (conds : List Bool) (rest : List Outcome)
    (devs : List Ev) (dec' : DecState)
    (h : readStream rs (st.chunked || rc) conds ⟨st.buffer, recvs⟩ =
      (devs, .raisedData, dec')) :
    runLoop jp rs st (.resp 200 rc recvs conds :: rest) =
    ((if 0 < st.delay then [Ev.sleep st.delay] else []) ++
      (Ev.onConnect :: (devs ++ [Ev.onWarning 1])) ++
      (runLoop jp rs ⟨1, st.chunked || rc, dec'.buffer, some dec'.socket⟩ rest).1,
     (runLoop jp rs ⟨1, st.chunked || rc, dec'.buffer, some dec'.socket⟩ rest).2) := by
  simp [runLoop, runStep, h, linearHandler]

/-- Witness for C10: a callback that raises on the first frame `A`. -/
theorem data_callback_exception_backoff_witness :
    runLoop jsonParseNone raisesAlways initRunState
      [.resp 200 false [recvAB] [true, true]] =
    ([.onConnect, .onData ['A'], .onWarning 1],
     .stoppedExternally ⟨1, false, ['B', '\n'], some []⟩) := by
  have := data_callback_exception_backoff jsonParseNone raisesAlways initRunState false
    [recvAB] [true, true] [] [.onData ['A']] ⟨['B', '\n'], []⟩ (by decide)
  simpa [initRunState] using this
